import Mathlib

/-!
Verification development for the `iching` repository

Two scripts are modelled:

* `convert-iching.js`: the pattern converter (`convertPattern`, `converted`);
* `start.js`: the development loop (`changeHandler`, `buildHandler`).

JavaScript strings are sequences of UTF-16 code units.  The spread
`[...pattern]` walks a string with the string iterator, which yields one
one-element or two-element string per Unicode code point.
-/

namespace IChing

/-! ## convert-iching.js -/

/-- A JavaScript string value: its sequence of UTF-16 code units. -/
abbrev JSString := List Nat

/-- Code units `0xD800..0xDBFF`. -/
def isLeadingSurrogate (u : Nat) : Bool := 0xD800 ≤ u && u ≤ 0xDBFF

/-- Code units `0xDC00..0xDFFF`. -/
def isTrailingSurrogate (u : Nat) : Bool := 0xDC00 ≤ u && u ≤ 0xDFFF

/-- The elements produced by `[...s]`: the string iterator of ECMAScript
(`CodePointAt` at each position).  A leading surrogate directly followed by a
trailing surrogate is yielded as one two-unit string, every other code unit
as a one-unit string. -/
def stringIterator : JSString → List JSString
  | [] => []
  | [first] => [[first]]
  | first :: second :: rest =>
    if isLeadingSurrogate first && isTrailingSurrogate second then
      [first, second] :: stringIterator rest
    else
      [first] :: stringIterator (second :: rest)

/-- The values `convert` can return: a boolean or a number. -/
inductive JSValue where
  | bool (b : Bool)
  | number (n : Int)
  deriving DecidableEq

/-- The string literal `"9"`: the single code unit `0x39`. -/
def nine : JSString := [0x39]

/-- Source line 4: `const USE_BOOLEANS = true`. -/
def USE_BOOLEANS : Bool := true

/-- The arrow function `convert` of `convertPattern` (source lines 12-19).
The constant `USE_BOOLEANS` it reads is taken as the first argument, so that
both settings of the constant can be examined. -/
def convert (useBooleans : Bool) (letter : JSString) : JSValue :=
  let unbroken : Bool := decide (letter = nine)
  if useBooleans then
    JSValue.bool unbroken
  else
    JSValue.number (if unbroken then 1 else 0)

/-- One entry of `iChing.hexagrams.hexagram`; only `pattern` is read. -/
structure HexagramRecord where
  pattern : JSString
  deriving DecidableEq

/-- The function `convertPattern` (source lines 11-21):
`[...pattern].map(convert)`. -/
def convertPattern (useBooleans : Bool) (record : HexagramRecord) : List JSValue :=
  (stringIterator record.pattern).map (convert useBooleans)

/-- The object under the key `hexagrams` of `iching.json`. -/
structure Hexagrams where
  hexagram : List HexagramRecord

/-- The parsed content of `iching.json`, as far as the script reads it. -/
structure IChingData where
  hexagrams : Hexagrams

/-- Source lines 6-7: `iChing.hexagrams.hexagram.map(convertPattern)`. -/
def converted (useBooleans : Bool) (iChing : IChingData) : List (List JSValue) :=
  iChing.hexagrams.hexagram.map (convertPattern useBooleans)

/-! ### Text as JavaScript strings -/

/-- UTF-16 encoding of one Unicode scalar value given by its number. -/
def utf16Units (n : Nat) : JSString :=
  if n < 0x10000 then [n]
  else [0xD800 + (n - 0x10000) / 0x400, 0xDC00 + (n - 0x10000) % 0x400]

/-- UTF-16 encoding of one character. -/
def utf16Char (c : Char) : JSString := utf16Units c.toNat

/-- The JavaScript string holding the given characters. -/
def utf16 (s : List Char) : JSString := (s.map utf16Char).flatten

/-- Conversion `true -> 1`, `false -> 0` of a returned value. -/
def toBit : JSValue → JSValue
  | JSValue.bool true => JSValue.number 1
  | JSValue.bool false => JSValue.number 0
  | JSValue.number n => JSValue.number n

/-! ## start.js

The orchestrator is a single-threaded event loop.  Its observable state is
the sequence of `console.log` calls, the sequence of commands handed to
`child_process.exec`, and the child processes whose completion callback has
not run yet.  The HTTP responder and the reload notifier (source lines 12-27)
are library objects which touch none of these and are left out.
-/

/-- What the script takes from Node: `__dirname` and `path.join`. -/
structure Env where
  dirname : String
  join : String → String → String

/-- Source line 8: `join(__dirname, 'Main.elm')`. -/
def ELM_MAIN (env : Env) : String := env.join env.dirname "Main.elm"

/-- Source line 9: `join(__dirname, 'elm.js')`. -/
def ELM_JS_OUTPUT (env : Env) : String := env.join env.dirname "elm.js"

/-- Source line 10. -/
def PORT : Nat := 3000

/-- The `Error` object `child_process.exec` passes to its callback when the
command could not be run or exited with a non-zero status. -/
structure ExecException where
  message : String
  code : Option Int
  deriving DecidableEq

/-- Observable state of the running script. -/
structure World where
  /-- Arguments of the `console.log` calls made so far, oldest first. -/
  log : List String
  /-- Commands passed to `child_process.exec` so far, oldest first. -/
  started : List String
  /-- Positions in `started` of the child processes still running. -/
  inFlight : List Nat
  deriving DecidableEq

/-- The call `console.log(line)`. -/
def consoleLog (line : String) (w : World) : World :=
  { w with log := w.log ++ [line] }

/-- The call `child_process.exec(command, buildHandler)`: the command is
started at once and its callback is left pending. -/
def exec (command : String) (w : World) : World :=
  { w with started := w.started ++ [command], inFlight := w.inFlight ++ [w.started.length] }

/-- The template literal of source line 37. -/
def compileCommand (env : Env) : String :=
  "elm make " ++ ELM_MAIN env ++ " --output " ++ ELM_JS_OUTPUT env

/-- The function `changeHandler` (source lines 35-38). -/
def changeHandler (env : Env) (w : World) : World :=
  exec (compileCommand env) (consoleLog "Building Elm code" w)

/-- The function `buildHandler` (source lines 40-45).  An `Error` object is
truthy and `null` is falsy; `stdout` is a string, on which `toString()` is the
identity. -/
def buildHandler (error : Option ExecException) (stdout _stderr : String) (w : World) : World :=
  match error with
  | some _ => w
  | none => consoleLog (toString stdout) w

/-- The state when source line 33 is reached: only line 23 has logged. -/
def startup : World :=
  consoleLog ("Serving files on " ++ toString PORT) { log := [], started := [], inFlight := [] }

/-- The state once the top level of the script has run: line 33 calls
`changeHandler()`. -/
def main (env : Env) : World := changeHandler env startup

/-- What the event loop can deliver afterwards. -/
inductive Event where
  /-- The watcher reports a change of `Main.elm`. -/
  | change
  /-- The child process at position `id` has ended; `exec` calls back. -/
  | completed (id : Nat) (error : Option ExecException) (stdout stderr : String)
  deriving DecidableEq

/-- One turn of the event loop.  A change is always handled; a completion is
possible only for a child process that is still running. -/
def step (env : Env) (w : World) : Event → Option World
  | Event.change => some (changeHandler env w)
  | Event.completed id error stdout stderr =>
    if id ∈ w.inFlight then
      some (buildHandler error stdout stderr { w with inFlight := w.inFlight.erase id })
    else
      none

/-- A sequence of turns. -/
def run (env : Env) : World → List Event → Option World
  | w, [] => some w
  | w, e :: es =>
    match step env w e with
    | some w1 => run env w1 es
    | none => none

/-- Number of change events in a sequence. -/
def countChanges : List Event → Nat
  | [] => 0
  | Event.change :: es => countChanges es + 1
  | Event.completed _ _ _ _ :: es => countChanges es

/-- The first callback argument `child_process.exec` builds from the exit
status of the command, as Node documents it: `null` for status 0, otherwise
an `Error` whose `code` is the status. -/
def exitError (status : Int) : Option ExecException :=
  if status = 0 then none
  else some { message := "Command failed", code := some status }

/-- A sample environment. -/
def sampleEnv : Env := { dirname := "/srv/iching", join := fun a b => a ++ "/" ++ b }

/-- A run with three overlapping builds completing out of order. -/
def sampleTrace : List Event :=
  [Event.change, Event.change, Event.completed 2 none "ok" "",
    Event.completed 0 (exitError 1) "" "error", Event.completed 1 none "ok" ""]

/-! ### Lemmas on the string iterator -/

theorem stringIterator_cons_of_not_leading (first : Nat) (tl : JSString)
    (h : isLeadingSurrogate first = false) :
    stringIterator (first :: tl) = [first] :: stringIterator tl := by
  cases tl with
  | nil => simp [stringIterator]
  | cons second rest => simp [stringIterator, h]

theorem stringIterator_pair (first second : Nat) (rest : JSString)
    (h1 : isLeadingSurrogate first = true) (h2 : isTrailingSurrogate second = true) :
    stringIterator (first :: second :: rest) = [first, second] :: stringIterator rest := by
  simp [stringIterator, h1, h2]

theorem char_toNat_valid (c : Char) :
    c.toNat < 0xD800 ∨ (0xDFFF < c.toNat ∧ c.toNat < 0x110000) := c.valid

theorem stringIterator_utf16Units_append (n : Nat)
    (hn : n < 0xD800 ∨ (0xDFFF < n ∧ n < 0x110000)) (tl : JSString) :
    stringIterator (utf16Units n ++ tl) = utf16Units n :: stringIterator tl := by
  unfold utf16Units
  split
  · have h : isLeadingSurrogate n = false := by
      simp only [isLeadingSurrogate, Bool.and_eq_false_imp, decide_eq_true_eq,
        decide_eq_false_iff_not]
      omega
    simpa using stringIterator_cons_of_not_leading n tl h
  · have h1 : isLeadingSurrogate (0xD800 + (n - 0x10000) / 0x400) = true := by
      simp only [isLeadingSurrogate, Bool.and_eq_true, decide_eq_true_eq]
      omega
    have h2 : isTrailingSurrogate (0xDC00 + (n - 0x10000) % 0x400) = true := by
      simp only [isTrailingSurrogate, Bool.and_eq_true, decide_eq_true_eq]
      omega
    simpa using stringIterator_pair _ _ tl h1 h2

theorem stringIterator_utf16 (s : List Char) :
    stringIterator (utf16 s) = s.map utf16Char := by
  induction s with
  | nil => simp [utf16, stringIterator]
  | cons c s ih =>
    have h := stringIterator_utf16Units_append c.toNat (char_toNat_valid c) (utf16 s)
    rw [ih] at h
    simpa [utf16, utf16Char] using h

theorem utf16Char_eq_nine (c : Char) : utf16Char c = nine ↔ c = '9' := by
  unfold utf16Char utf16Units nine
  constructor
  · intro h
    split at h
    · simp only [List.cons.injEq, and_true] at h
      apply Char.ext
      apply UInt32.ext
      exact h
    · simp at h
  · rintro rfl
    decide

theorem stringIterator_of_no_leading (p : JSString)
    (h : ∀ u ∈ p, isLeadingSurrogate u = false) :
    stringIterator p = p.map (fun u => [u]) := by
  induction p with
  | nil => simp [stringIterator]
  | cons a tl ih =>
    rw [stringIterator_cons_of_not_leading a tl (h a (by simp)),
      ih (fun u hu => h u (by simp [hu]))]
    simp

theorem mem_of_mem_stringIterator :
    ∀ (p : JSString) (c : JSString), c ∈ stringIterator p → ∀ u ∈ c, u ∈ p
  | [], c, hc, u, _ => by simp [stringIterator] at hc
  | [a], c, hc, u, hu => by
    simp only [stringIterator, List.mem_singleton] at hc
    subst hc
    exact hu
  | a :: b :: rest, c, hc, u, hu => by
    simp only [stringIterator] at hc
    split at hc
    · rcases List.mem_cons.1 hc with rfl | hc
      · simp only [List.mem_cons, List.mem_singleton, List.not_mem_nil, or_false] at hu
        rcases hu with rfl | rfl <;> simp
      · have := mem_of_mem_stringIterator rest c hc u hu
        simp [this]
    · rcases List.mem_cons.1 hc with rfl | hc
      · simp only [List.mem_singleton] at hu
        simp [hu]
      · have := mem_of_mem_stringIterator (b :: rest) c hc u hu
        exact List.mem_cons_of_mem _ this

theorem convert_true (letter : JSString) :
    convert true letter = JSValue.bool (decide (letter = nine)) := rfl

theorem convert_false (letter : JSString) :
    convert false letter = JSValue.number (if letter = nine then 1 else 0) := by
  by_cases h : letter = nine <;> simp [convert, h]

theorem toBit_convert_true (letter : JSString) :
    toBit (convert true letter) = convert false letter := by
  by_cases h : letter = nine <;> simp [convert, toBit, h]

theorem stringIterator_replicate_nine (n : Nat) :
    stringIterator (List.replicate n 0x39) = List.replicate n nine := by
  rw [stringIterator_of_no_leading]
  · simp [nine]
  · intro u hu
    rw [List.eq_of_mem_replicate hu]
    decide

/-- A surrogate pair is one character of the iteration and two code units:
the output then has one element for two code units. -/
theorem convertPattern_surrogate_pair :
    convertPattern USE_BOOLEANS { pattern := [0xD83D, 0xDE00, 0x39] }
      = [JSValue.bool false, JSValue.bool true] := by
  decide

/-! ## The pattern converter -/

/-- C1: with `USE_BOOLEANS = true`, `convertPattern` returns the characters of
the pattern, in order, each mapped to `true` when it is the character "9" and
to `false` otherwise.  Stated for the elements of the string iteration of any
JavaScript string, for any text encoded as a JavaScript string, and index by
index. -/
theorem convertPattern_maps_each_character (record : HexagramRecord) :
    convertPattern USE_BOOLEANS record
        = (stringIterator record.pattern).map (fun c => JSValue.bool (decide (c = nine)))
      ∧ (∀ s : List Char, convertPattern USE_BOOLEANS { pattern := utf16 s }
          = s.map (fun c => JSValue.bool (decide (c = '9'))))
      ∧ (∀ (s : List Char) (i : Nat),
          ((convertPattern USE_BOOLEANS { pattern := utf16 s })[i]? = some (JSValue.bool true)
            ↔ s[i]? = some '9')
          ∧ ((convertPattern USE_BOOLEANS { pattern := utf16 s })[i]? = some (JSValue.bool false)
            ↔ ∃ c, s[i]? = some c ∧ c ≠ '9')) := by
  have htext : ∀ s : List Char, convertPattern USE_BOOLEANS { pattern := utf16 s }
      = s.map (fun c => JSValue.bool (decide (c = '9'))) := by
    intro s
    simp only [convertPattern, USE_BOOLEANS, stringIterator_utf16, List.map_map]
    apply List.map_congr_left
    intro c _
    simp [convert_true, utf16Char_eq_nine]
  refine ⟨rfl, htext, ?_⟩
  intro s i
  rw [htext s, List.getElem?_map]
  cases h : s[i]? with
  | none => simp
  | some c => simp

/-- C2: the sequence returned by `convertPattern` has as many elements as the
pattern has characters: as many as the string iteration yields, as many as
the characters of any text it encodes (so six for a six-character pattern),
and as many as the pattern has code units when none is a leading surrogate. -/
theorem convertPattern_length (useBooleans : Bool) (record : HexagramRecord) :
    (convertPattern useBooleans record).length = (stringIterator record.pattern).length
      ∧ (∀ s : List Char, (convertPattern useBooleans { pattern := utf16 s }).length = s.length)
      ∧ (∀ s : List Char, s.length = 6 →
          (convertPattern useBooleans { pattern := utf16 s }).length = 6)
      ∧ ((∀ u ∈ record.pattern, isLeadingSurrogate u = false) →
          (convertPattern useBooleans record).length = record.pattern.length) := by
  have htext : ∀ s : List Char,
      (convertPattern useBooleans { pattern := utf16 s }).length = s.length := by
    intro s
    simp [convertPattern, stringIterator_utf16]
  refine ⟨by simp [convertPattern], htext, fun s hs => (htext s).trans hs, ?_⟩
  intro h
  simp [convertPattern, stringIterator_of_no_leading record.pattern h]

theorem convertPattern_length_witness :
    (∀ u ∈ ({ pattern := utf16 "966797".toList } : HexagramRecord).pattern,
        isLeadingSurrogate u = false)
      ∧ "966797".toList.length = 6
      ∧ (convertPattern USE_BOOLEANS { pattern := utf16 "966797".toList }).length = 6
      ∧ (convertPattern USE_BOOLEANS { pattern := utf16 "966797".toList }).length
          = (utf16 "966797".toList).length :=
  ⟨by decide, by decide,
    (convertPattern_length USE_BOOLEANS { pattern := [] }).2.2.1 "966797".toList (by decide),
    (convertPattern_length USE_BOOLEANS { pattern := utf16 "966797".toList }).2.2.2 (by decide)⟩

/-- C3: the converted collection has the length of the input list, and its
element `i` is `convertPattern` applied to input record `i`. -/
theorem converted_preserves_order (useBooleans : Bool) (iChing : IChingData) :
    (converted useBooleans iChing).length = iChing.hexagrams.hexagram.length
      ∧ ∀ i : Nat, (converted useBooleans iChing)[i]?
          = (iChing.hexagrams.hexagram[i]?).map (convertPattern useBooleans) := by
  constructor
  · simp [converted]
  · intro i
    simp [converted, List.getElem?_map]

/-- C4: for a pattern made of `n` characters "9", every element of the output
is `true`, or `1` when `USE_BOOLEANS` is false: the output is that value
repeated `n` times. -/
theorem convertPattern_all_nine (useBooleans : Bool) (n : Nat) :
    convertPattern useBooleans { pattern := List.replicate n 0x39 }
        = List.replicate n (if useBooleans then JSValue.bool true else JSValue.number 1)
      ∧ ∀ v ∈ convertPattern useBooleans { pattern := List.replicate n 0x39 },
          v = (if useBooleans then JSValue.bool true else JSValue.number 1) := by
  have h : convertPattern useBooleans { pattern := List.replicate n 0x39 }
      = List.replicate n (if useBooleans then JSValue.bool true else JSValue.number 1) := by
    simp only [convertPattern, stringIterator_replicate_nine, List.map_replicate]
    cases useBooleans <;> simp [convert]
  refine ⟨h, ?_⟩
  intro v hv
  rw [h] at hv
  exact List.eq_of_mem_replicate hv

/-- C5: for a pattern with no "9" in it, every element of the output is
`false`, or `0` when `USE_BOOLEANS` is false. -/
theorem convertPattern_no_nine (useBooleans : Bool) (record : HexagramRecord)
    (h : 0x39 ∉ record.pattern) :
    ∀ v ∈ convertPattern useBooleans record,
      v = (if useBooleans then JSValue.bool false else JSValue.number 0) := by
  intro v hv
  simp only [convertPattern, List.mem_map] at hv
  obtain ⟨c, hc, rfl⟩ := hv
  have hne : c ≠ nine := by
    rintro rfl
    exact h (mem_of_mem_stringIterator record.pattern nine hc 0x39 (by simp [nine]))
  cases useBooleans <;> simp [convert, hne]

theorem convertPattern_no_nine_witness :
    0x39 ∉ ({ pattern := utf16 "678".toList } : HexagramRecord).pattern
      ∧ ∀ v ∈ convertPattern false { pattern := utf16 "678".toList }, v = JSValue.number 0 :=
  ⟨by decide, convertPattern_no_nine false { pattern := utf16 "678".toList } (by decide)⟩

/-- C6: with `USE_BOOLEANS = true`, the record with pattern "966797" converts
to `[true, false, false, false, true, false]`. -/
theorem convertPattern_example :
    convertPattern USE_BOOLEANS { pattern := utf16 "966797".toList }
      = [JSValue.bool true, JSValue.bool false, JSValue.bool false,
          JSValue.bool false, JSValue.bool true, JSValue.bool false] := by
  decide

/-- C7: the output with `USE_BOOLEANS = false` is the output with
`USE_BOOLEANS = true` with `true` replaced by `1` and `false` by `0`; every
element of it is `0` or `1`, and it is `1` exactly where the boolean output
is `true`. -/
theorem convertPattern_flag_refinement (record : HexagramRecord) :
    convertPattern false record = (convertPattern true record).map toBit
      ∧ (∀ v ∈ convertPattern false record, v = JSValue.number 0 ∨ v = JSValue.number 1)
      ∧ ∀ i : Nat, (convertPattern false record)[i]? = some (JSValue.number 1)
          ↔ (convertPattern true record)[i]? = some (JSValue.bool true) := by
  refine ⟨?_, ?_, ?_⟩
  · simp only [convertPattern, List.map_map]
    apply List.map_congr_left
    intro c _
    exact (toBit_convert_true c).symm
  · intro v hv
    simp only [convertPattern, List.mem_map] at hv
    obtain ⟨c, _, rfl⟩ := hv
    by_cases h : c = nine <;> simp [convert, h]
  · intro i
    simp only [convertPattern, List.getElem?_map]
    cases (stringIterator record.pattern)[i]? with
    | none => simp
    | some c => by_cases h : c = nine <;> simp [convert, h]

/-! ## The development loop -/

theorem buildHandler_some (e : ExecException) (stdout stderr : String) (w : World) :
    buildHandler (some e) stdout stderr w = w := rfl

theorem buildHandler_none (stdout stderr : String) (w : World) :
    buildHandler none stdout stderr w = { w with log := w.log ++ [stdout] } := rfl

theorem exitError_of_ne_zero (status : Int) (h : status ≠ 0) :
    exitError status = some { message := "Command failed", code := some status } := by
  simp [exitError, h]

/-- C8: `buildHandler` logs if and only if `error` is absent.  With `error`
absent it appends exactly one entry to the log, the standard output, and
changes nothing else; with `error` present it leaves the whole state as it
is: nothing logged, no command started, no build added or removed. -/
theorem buildHandler_logs_iff_no_error (error : Option ExecException)
    (stdout stderr : String) (w : World) :
    ((buildHandler error stdout stderr w).log ≠ w.log ↔ error = none)
      ∧ (buildHandler none stdout stderr w).log = w.log ++ [stdout]
      ∧ (buildHandler error stdout stderr w).started = w.started
      ∧ (buildHandler error stdout stderr w).inFlight = w.inFlight
      ∧ (∀ e : ExecException, buildHandler (some e) stdout stderr w = w)
      ∧ (buildHandler error stdout stderr w).log.length
          = w.log.length + (if error = none then 1 else 0) := by
  cases error with
  | none =>
    refine ⟨?_, rfl, rfl, rfl, fun _ => rfl, ?_⟩
    · simp [buildHandler_none]
    · simp [buildHandler_none]
  | some e =>
    refine ⟨?_, rfl, rfl, rfl, fun _ => rfl, ?_⟩
    · simp [buildHandler_some]
    · simp [buildHandler_some]

theorem changeHandler_started (env : Env) (w : World) :
    (changeHandler env w).started = w.started ++ [compileCommand env] := rfl

theorem changeHandler_log (env : Env) (w : World) :
    (changeHandler env w).log = w.log ++ ["Building Elm code"] := rfl

theorem changeHandler_inFlight (env : Env) (w : World) :
    (changeHandler env w).inFlight = w.inFlight ++ [w.started.length] := rfl

theorem buildHandler_started (error : Option ExecException) (stdout stderr : String)
    (w : World) : (buildHandler error stdout stderr w).started = w.started := by
  cases error <;> rfl

theorem step_started (env : Env) (w w1 : World) (e : Event) (h : step env w e = some w1) :
    w1.started = w.started ++ List.replicate (countChanges [e]) (compileCommand env) := by
  cases e with
  | change =>
    simp only [step, Option.some.injEq] at h
    subst h
    simp [countChanges, changeHandler_started]
  | completed id error stdout stderr =>
    simp only [step] at h
    split at h
    · simp only [Option.some.injEq] at h
      subst h
      simp [countChanges, buildHandler_started]
    · simp at h

theorem countChanges_cons (e : Event) (es : List Event) :
    countChanges (e :: es) = countChanges [e] + countChanges es := by
  cases e <;> simp [countChanges, Nat.add_comm]

theorem run_started (env : Env) (evs : List Event) :
    ∀ (w w1 : World), run env w evs = some w1 →
      w1.started = w.started ++ List.replicate (countChanges evs) (compileCommand env) := by
  induction evs with
  | nil =>
    intro w w1 h
    simp only [run, Option.some.injEq] at h
    subst h
    simp [countChanges]
  | cons e es ih =>
    intro w w1 h
    simp only [run] at h
    cases hs : step env w e with
    | none => simp [hs] at h
    | some w2 =>
      rw [hs] at h
      rw [countChanges_cons e es, List.replicate_add, ih w2 w1 h,
        step_started env w w2 e hs, List.append_assoc]

theorem run_failing_build (env : Env) (w : World) (e : ExecException)
    (stdout stderr : String) :
    run env w [Event.change, Event.completed w.started.length (some e) stdout stderr]
      = some { log := w.log ++ ["Building Elm code"],
               started := w.started ++ [compileCommand env],
               inFlight := (w.inFlight ++ [w.started.length]).erase w.started.length } := by
  simp [run, step, changeHandler, exec, consoleLog, buildHandler]

/-- C9, as the code has it: when a change event (or the start of the process)
triggers a compile command which exits with a non-zero status, the log gains
exactly one entry for that build, "Building Elm code", written by
`changeHandler`; `buildHandler` adds nothing on the failing completion; and a
further change event is handled, starting the command again. -/
theorem failing_build_logs_only_start_line (env : Env) (w : World) (status : Int)
    (stdout stderr : String) (h : status ≠ 0) :
    (run env w [Event.change,
        Event.completed w.started.length (exitError status) stdout stderr]).map World.log
        = some (w.log ++ ["Building Elm code"])
      ∧ (buildHandler (exitError status) stdout stderr (changeHandler env w)).log
        = (changeHandler env w).log
      ∧ (run env w [Event.change,
          Event.completed w.started.length (exitError status) stdout stderr,
          Event.change]).map World.started
        = some (w.started ++ [compileCommand env, compileCommand env]) := by
  rw [exitError_of_ne_zero status h]
  refine ⟨?_, rfl, ?_⟩
  · rw [run_failing_build]
    rfl
  · simp [run, step, changeHandler, exec, consoleLog, buildHandler]

theorem failing_build_logs_only_start_line_witness :
    (1 : Int) ≠ 0
      ∧ (run sampleEnv startup [Event.change,
          Event.completed startup.started.length (exitError 1) "" "error"]).map World.log
        = some (startup.log ++ ["Building Elm code"]) :=
  ⟨by decide,
    (failing_build_logs_only_start_line sampleEnv startup 1 "" "error" (by decide)).1⟩

/-- C9 as stated fails: the build started at process start, whose command
exits with status 1, leaves the entry "Building Elm code" in the log. -/
theorem failing_build_emits_a_log_line :
    startup.log = ["Serving files on 3000"]
      ∧ (run sampleEnv (main sampleEnv)
          [Event.completed 0 (exitError 1) "" "error"]).map World.log
        = some ["Serving files on 3000", "Building Elm code"]
      ∧ (run sampleEnv (main sampleEnv)
          [Event.completed 0 (exitError 1) "" "error"]).map World.log
        ≠ some startup.log := by
  decide

/-- C10: after startup followed by any sequence of events that holds `n`
change events, with build completions interleaved in any order, exactly
`n + 1` compile commands have been started, each the same fixed command; and
in every state a change event is handled at once: it starts one more command
and adds one more build in flight, whatever is already in flight. -/
theorem build_trigger_invocations (env : Env) (evs : List Event) (w : World)
    (h : run env (main env) evs = some w) :
    w.started.length = countChanges evs + 1
      ∧ w.started = List.replicate (countChanges evs + 1)
          ("elm make " ++ ELM_MAIN env ++ " --output " ++ ELM_JS_OUTPUT env)
      ∧ (∀ c ∈ w.started, c = "elm make " ++ ELM_MAIN env ++ " --output " ++ ELM_JS_OUTPUT env)
      ∧ (∀ w0 : World, step env w0 Event.change
          = some { log := w0.log ++ ["Building Elm code"],
                   started := w0.started ++ [compileCommand env],
                   inFlight := w0.inFlight ++ [w0.started.length] })
      ∧ (∀ n : Nat, (run env (main env) (List.replicate n Event.change)).map
          (fun w1 => w1.inFlight.length) = some (n + 1)) := by
  have hs : w.started = List.replicate (countChanges evs + 1) (compileCommand env) := by
    rw [run_started env evs (main env) w h]
    simp [main, changeHandler_started, startup, consoleLog, List.replicate_succ]
  have hchange : ∀ n : Nat, ∀ w0 : World,
      (run env w0 (List.replicate n Event.change)).map (fun w1 => w1.inFlight.length)
        = some (w0.inFlight.length + n) := by
    intro n
    induction n with
    | zero => intro w0; simp [run]
    | succ n ih =>
      intro w0
      simp only [List.replicate_succ, run, step]
      rw [ih (changeHandler env w0), changeHandler_inFlight]
      simp [Nat.add_comm, Nat.add_left_comm]
  refine ⟨?_, hs, ?_, fun w0 => rfl, ?_⟩
  · rw [hs, List.length_replicate]
  · intro c hc
    rw [hs] at hc
    exact List.eq_of_mem_replicate hc
  · intro n
    rw [hchange n (main env)]
    simp [main, changeHandler_inFlight, startup, consoleLog, Nat.add_comm]

theorem build_trigger_invocations_witness :
    run sampleEnv (main sampleEnv) sampleTrace
        = some { log := ["Serving files on 3000", "Building Elm code", "Building Elm code",
                   "Building Elm code", "ok", "ok"],
                 started := List.replicate 3
                   "elm make /srv/iching/Main.elm --output /srv/iching/elm.js",
                 inFlight := [] }
      ∧ (List.replicate 3 "elm make /srv/iching/Main.elm --output /srv/iching/elm.js").length
        = countChanges sampleTrace + 1 :=
  ⟨by decide,
    (build_trigger_invocations sampleEnv sampleTrace
      { log := ["Serving files on 3000", "Building Elm code", "Building Elm code",
          "Building Elm code", "ok", "ok"],
        started := List.replicate 3
          "elm make /srv/iching/Main.elm --output /srv/iching/elm.js",
        inFlight := [] } (by decide)).1⟩

end IChing
